import Mathlib

/-!
Verification of the `pkg/ast` package of the rogue repository: the AST data
model (`ast.go`) and its JSON codec (`ast_json.go`).

The codec operates on `jsoniter.Any` values (json-iterator/go).  We embed the
JSON tree as the inductive `Rogue.Json`, and a (possibly invalid/missing)
`jsoniter.Any` as `Option Rogue.Json` (`none` is jsoniter's invalid Any, which
is what `Get` returns for a missing key or a non-object receiver).

The jsoniter coercions used by the source (`ToUint`, `ToString`, `ToBool`,
`ToVal` into `[]jsoniter.Any`) and the Go standard-library number conversions
(`strconv.ParseInt(s, 10, 32)`, `strconv.FormatInt(v, 10)`,
`strconv.ParseFloat(s, 64)`) are modelled below; each model's doc comment
states the library behaviour it reproduces.
-/

namespace Rogue

/-- A parsed JSON document: the tree jsoniter exposes through `Any`. -/
inductive Json where
  | null : Json
  | bool (b : Bool) : Json
  | num (n : Int) : Json
  | str (s : String) : Json
  | arr (elems : List Json) : Json
  | obj (fields : List (String × Json)) : Json

/-- Field access, `any.Get(key)`: defined (first match) on objects, and the
invalid Any (`none`) for a missing key or any non-object receiver. -/
def getField : Option Json → String → Option Json
  | some (.obj fields), key => fields.lookup key
  | _, _ => none

/-- `ToVal(&[]jsoniter.Any)` as used at ast_json.go:51-52, 162-163, 196-197,
225-226: an array yields its elements; anything else (missing field, null, or
a non-array value, where `ToVal` leaves the slice `nil`) yields `[]`. -/
def asArr : Option Json → List Json
  | some (.arr elems) => elems
  | _ => []

/-- `48 ≤ c ∧ c ≤ 57`, i.e. `'0' <= c && c <= '9'` as Go writes it. -/
def isDigitChar (c : Char) : Bool :=
  48 ≤ c.toNat && c.toNat ≤ 57

/-- Base-10 value of a digit run (most significant first). -/
def digitsVal (ds : List Char) : Nat :=
  ds.foldl (fun a c => a * 10 + (c.toNat - 48)) 0

/-- jsoniter `stringAny.ToUint64`: skip one leading `'+'`/`'-'`, parse the
maximal leading digit run (an empty run parses to `0`, trailing garbage is
ignored).  Runs overflowing `uint64` differ (Go clamps to `2^64-1`); both
land outside every tag constant, which is all the decoder compares against. -/
def strDigitPrefix (s : String) : Nat :=
  match s.data with
  | [] => 0
  | c :: cs =>
    let body := if c = '+' ∨ c = '-' then cs else c :: cs
    digitsVal (body.takeWhile isDigitChar)

/-- jsoniter `Any.ToUint` of a (possibly invalid) Any: the invalid Any and
`null` give `0`; booleans give `1`/`0`; a non-negative number its value and a
negative number `0` (`ReadUint64` fails on `'-'`); a string its digit prefix
(`stringAny.ToUint64`); arrays and objects give `0`. -/
def toUint : Option Json → Nat
  | none => 0
  | some .null => 0
  | some (.bool b) => if b then 1 else 0
  | some (.num n) => if n < 0 then 0 else n.toNat
  | some (.str s) => strDigitPrefix s
  | some (.arr _) => 0
  | some (.obj _) => 0

/-- Decimal digits of `n`, most significant first, via a structural fuel
(`fuel` bounds the number of digits, so `natDigitsAux (n+1) n` is exact). -/
def natDigitsAux : Nat → Nat → List Char
  | 0, _ => []
  | fuel + 1, n =>
    if n < 10 then [Char.ofNat (48 + n)]
    else natDigitsAux fuel (n / 10) ++ [Char.ofNat (48 + n % 10)]

/-- Decimal digit string of a natural number, e.g. `natDigitChars 230 = "230".data`. -/
def natDigitChars (n : Nat) : List Char :=
  natDigitsAux (n + 1) n

/-- Go `strconv.FormatInt(v, 10)`: minus sign for negatives, then the decimal
digits. -/
def formatGoInt (v : Int) : String :=
  if v < 0 then ⟨'-' :: natDigitChars (-v).toNat⟩ else ⟨natDigitChars v.toNat⟩

/-- jsoniter `Any.ToString` of a (possibly invalid) Any: the invalid Any and
`null` render as `""`, scalars as their literal text, and arrays/objects as
their JSON text (modelled by `Json.render` below; jsoniter returns the raw
input slice, which for our synthesised trees is the same up to whitespace and
string escaping — no claim touches those corners). -/
def renderFuel : Nat → Json → String
  | 0, _ => ""
  | _ + 1, .null => "null"
  | _ + 1, .bool b => if b then "true" else "false"
  | _ + 1, .num n => formatGoInt n
  | _ + 1, .str s => "\"" ++ s ++ "\""
  | fuel + 1, .arr elems =>
    "[" ++ String.intercalate "," (elems.map (renderFuel fuel)) ++ "]"
  | fuel + 1, .obj fields =>
    "\x7b" ++ String.intercalate ","
      (fields.map (fun kv => "\"" ++ kv.1 ++ "\":" ++ renderFuel fuel kv.2)) ++ "\x7d"

/-- Depth of a JSON tree, to drive `renderFuel`. -/
def Json.depth : Json → Nat
  | .null | .bool _ | .num _ | .str _ => 1
  | .arr elems => 1 + elems.attach.foldl (fun a e => max a e.1.depth) 0
  | .obj fields => 1 + fields.attach.foldl (fun a kv => max a kv.1.2.depth) 0
decreasing_by
  · have := List.sizeOf_lt_of_mem e.2; simp at *; omega
  · have := List.sizeOf_lt_of_mem kv.2
    have : sizeOf kv.1.2 < sizeOf kv.1 := by cases kv.1; simp
    simp at *; omega

/-- Canonical JSON text of a tree (see `toGoString`). -/
def Json.render (j : Json) : String := renderFuel j.depth j

/-- jsoniter `Any.ToString`; see `renderFuel`'s doc comment. -/
def toGoString : Option Json → String
  | none => ""
  | some .null => ""
  | some (.bool b) => if b then "true" else "false"
  | some (.num n) => formatGoInt n
  | some (.str s) => s
  | some (.arr elems) => Json.render (.arr elems)
  | some (.obj fields) => Json.render (.obj fields)

/-- jsoniter `Any.ToBool`: invalid Any and `null` are `false`; numbers are
compared with zero; a string is `true` unless it is `"0"` or all whitespace
(`stringAny.ToBool`); arrays and objects are `true` when non-empty. -/
def toGoBool : Option Json → Bool
  | none => false
  | some .null => false
  | some (.bool b) => b
  | some (.num n) => n ≠ 0
  | some (.str s) => s ≠ "0" && s.data.any (fun c => c ∉ [' ', '\n', '\r', '\t'])
  | some (.arr elems) => !elems.isEmpty
  | some (.obj fields) => !fields.isEmpty

/-- Kind of a Go `strconv.NumError` (`ErrSyntax` / `ErrRange`). -/
inductive NumErrKind where
  | synErr
  | rangeErr
deriving DecidableEq, Repr

/-- Errors returned by the decoder: `ErrInvalidJSON` (ast_json.go:11) or an
error propagated from `strconv` (a `*NumError` carrying the function name,
the offending input and the error kind). -/
inductive DecodeError where
  | invalidJSON
  | numError (fn : String) (num : String) (kind : NumErrKind)
deriving DecidableEq, Repr

/-- Go `strconv.ParseInt(s, 10, 32)`: an optional single sign followed by a
non-empty run of decimal digits; the value must fit a signed 32-bit integer,
otherwise `ErrRange`; any other shape is `ErrSyntax`. -/
def goParseInt32 (s : String) : Except DecodeError Int :=
  match s.data with
  | [] => .error (.numError "ParseInt" s .synErr)
  | c :: cs =>
    let neg := c = '-'
    let ds := if c = '-' ∨ c = '+' then cs else c :: cs
    if ds ≠ [] ∧ ds.all isDigitChar then
      let n := digitsVal ds
      if neg then
        if 2 ^ 31 < n then .error (.numError "ParseInt" s .rangeErr)
        else .ok (-(n : Int))
      else
        if 2 ^ 31 ≤ n then .error (.numError "ParseInt" s .rangeErr)
        else .ok (n : Int)
    else .error (.numError "ParseInt" s .synErr)

/-- Decimal mantissa of a Go float literal: `digits [. digits*]` or
`. digits+`. -/
def mantissaOK (cs : List Char) : Bool :=
  let ip := cs.takeWhile isDigitChar
  match cs.drop ip.length with
  | [] => !ip.isEmpty
  | '.' :: frac => frac.all isDigitChar && (!ip.isEmpty || !frac.isEmpty)
  | _ => false

/-- Exponent part of a Go float literal (after the `e`/`E`): optional sign
then a non-empty digit run. -/
def expPartOK (cs : List Char) : Bool :=
  match cs with
  | [] => false
  | c :: rest =>
    let ds := if c = '+' ∨ c = '-' then rest else c :: rest
    !ds.isEmpty && ds.all isDigitChar

/-- Syntax accepted by Go `strconv.ParseFloat(s, 64)`: an optional sign, then
either a special (`inf`, `infinity`, `nan`, case-insensitive) or a decimal
mantissa with an optional `e`/`E` exponent.  (Hex-float and digit-separator
forms, and overflow-to-`ErrRange`, are elided: no claim reaches them.) -/
def goFloatSyntax (s : String) : Bool :=
  match s.data with
  | [] => false
  | c :: cs =>
    let body := if c = '+' ∨ c = '-' then cs else c :: cs
    let ls := body.map Char.toLower
    if ls = "inf".data ∨ ls = "infinity".data ∨ ls = "nan".data then true
    else
      let m := body.takeWhile (fun c => c ≠ 'e' && c ≠ 'E')
      let rest := body.drop m.length
      mantissaOK m && (rest.isEmpty || expPartOK (rest.drop 1))

/-- Go `strconv.ParseFloat(s, 64)`.  The parsed float64 is represented by the
accepted text itself (see `Float64`); failure is the propagated
`*NumError`. -/
def goParseFloat64 (s : String) : Except DecodeError String :=
  if goFloatSyntax s then .ok s else .error (.numError "ParseFloat" s .synErr)

/-- `Type uint` tag constants (`ast.go`, `iota + 1`). -/
def TypeModule : Nat := 1
def TypeNil : Nat := 2
def TypeBoolean : Nat := 3
def TypeInt32 : Nat := 4
def TypeFloat64 : Nat := 5
def TypeString : Nat := 6
def TypeID : Nat := 7
def TypeDefinition : Nat := 8
def TypeLambda : Nat := 9
def TypeCall : Nat := 10
def TypeAnonymousCall : Nat := 11

/-- `Nil` — a nil literal value (no fields). -/
structure Nil where

/-- `Boolean` — a boolean literal value. -/
structure Boolean where
  value : Bool

/-- `Int32` — a 32-bit integer literal value.  The Go field is `int32`; we
carry an `Int`, and every theorem quantifying over it restricts to the
representable range `-2^31 ≤ value < 2^31`. -/
structure Int32 where
  value : Int

/-- `Float64` — a 64-bit floating point literal value.  A finite Go
`float64` is represented here by its decimal text — the image of
`strconv.FormatFloat(value, 'f', -1, 64)`, which is injective on `float64` —
since bit-level IEEE-754 semantics are outside this embedding. -/
structure Float64 where
  value : String

/-- `String` — a string literal value (named `Str` here: the Lean core name
`String` is taken). -/
structure Str where
  value : String

/-- `ID` — an identifier. -/
structure ID where
  value : String

mutual
/-- `Expression` — the closed union of the eleven variants (`ast.go`). -/
inductive Expression where
  | module (m : Module) : Expression
  | nil (n : Nil) : Expression
  | boolean (b : Boolean) : Expression
  | int32 (i : Int32) : Expression
  | float64 (f : Float64) : Expression
  | str (s : Str) : Expression
  | id (i : ID) : Expression
  | definition (d : Definition) : Expression
  | lambda (l : Lambda) : Expression
  | call (c : Call) : Expression
  | anonymousCall (a : AnonymousCall) : Expression

/-- `Module` — a module: a name and its definitions. -/
inductive Module where
  | mk (name : String) (definitions : List Definition) : Module

/-- `Definition` — a variable definition. -/
inductive Definition where
  | mk (id : ID) (expression : Expression) : Definition

/-- `Lambda` — a lambda procedure definition. -/
inductive Lambda where
  | mk (parameters : List ID) (expression : Expression) : Lambda

/-- `Call` — a procedure call. -/
inductive Call where
  | mk (id : ID) (arguments : List Expression) : Call

/-- `AnonymousCall` — an anonymous procedure call. -/
inductive AnonymousCall where
  | mk (lambda : Lambda) (arguments : List Expression) : AnonymousCall
end

/-- `(e Expression) Type()` — the variant's fixed tag (`ast.go`). -/
def Expression.typeTag : Expression → Nat
  | .module _ => TypeModule
  | .nil _ => TypeNil
  | .boolean _ => TypeBoolean
  | .int32 _ => TypeInt32
  | .float64 _ => TypeFloat64
  | .str _ => TypeString
  | .id _ => TypeID
  | .definition _ => TypeDefinition
  | .lambda _ => TypeLambda
  | .call _ => TypeCall
  | .anonymousCall _ => TypeAnonymousCall

/-- `(n *Nil) JSON()` (ast_json.go:257-259). -/
def Nil.JSON : Nil → Json
  | _ => .obj [("type", .num TypeNil)]

/-- `(b *Boolean) JSON()` (ast_json.go:262-267). -/
def Boolean.JSON : Boolean → Json
  | ⟨value⟩ => .obj [("type", .num TypeBoolean), ("value", .bool value)]

/-- `(i *Int32) JSON()` (ast_json.go:270-275): the value is emitted as the
`strconv.FormatInt` base-10 text, not as a JSON number. -/
def Int32.JSON : Int32 → Json
  | ⟨value⟩ => .obj [("type", .num TypeInt32), ("value", .str (formatGoInt value))]

/-- `(f *Float64) JSON()` (ast_json.go:278-283): the value is emitted as its
`strconv.FormatFloat(v, 'f', -1, 64)` text (which is how `Float64.value` is
represented here), not as a JSON number. -/
def Float64.JSON : Float64 → Json
  | ⟨value⟩ => .obj [("type", .num TypeFloat64), ("value", .str value)]

/-- `(s *String) JSON()` (ast_json.go:286-291). -/
def Str.JSON : Str → Json
  | ⟨value⟩ => .obj [("type", .num TypeString), ("value", .str value)]

/-- `(i *ID) JSON()` (ast_json.go:294-299). -/
def ID.JSON : ID → Json
  | ⟨value⟩ => .obj [("type", .num TypeID), ("value", .str value)]

mutual
/-- `Expression.JSON()` — dispatch of the interface method to the variant. -/
def Expression.JSON : Expression → Json
  | .module m => m.JSON
  | .nil n => n.JSON
  | .boolean b => b.JSON
  | .int32 i => i.JSON
  | .float64 f => f.JSON
  | .str s => s.JSON
  | .id i => i.JSON
  | .definition d => d.JSON
  | .lambda l => l.JSON
  | .call c => c.JSON
  | .anonymousCall a => a.JSON

/-- `(m *Module) JSON()` (ast_json.go:244-254).  The emitted mapping holds
only `"type"` and `"definitions"`: the source does not emit the module's
name. -/
def Module.JSON : Module → Json
  | ⟨_, definitions⟩ =>
    .obj [("type", .num TypeModule), ("definitions", .arr (definitionListJSON definitions))]

/-- `(d *Definition) JSON()` (ast_json.go:302-308). -/
def Definition.JSON : Definition → Json
  | ⟨id, expression⟩ =>
    .obj [("type", .num TypeDefinition), ("id", id.JSON), ("expression", expression.JSON)]

/-- `(l *Lambda) JSON()` (ast_json.go:311-322). -/
def Lambda.JSON : Lambda → Json
  | ⟨parameters, expression⟩ =>
    .obj [("type", .num TypeLambda), ("parameters", .arr (parameters.map ID.JSON)),
          ("expression", expression.JSON)]

/-- `(c *Call) JSON()` (ast_json.go:325-336). -/
def Call.JSON : Call → Json
  | ⟨id, arguments⟩ =>
    .obj [("type", .num TypeCall), ("id", id.JSON),
          ("arguments", .arr (expressionListJSON arguments))]

/-- `(c *AnonymousCall) JSON()` (ast_json.go:339-350). -/
def AnonymousCall.JSON : AnonymousCall → Json
  | ⟨lambda, arguments⟩ =>
    .obj [("type", .num TypeAnonymousCall), ("lambda", lambda.JSON),
          ("arguments", .arr (expressionListJSON arguments))]

/-- The loop at ast_json.go:245-248 (encode each definition in order). -/
def definitionListJSON : List Definition → List Json
  | [] => []
  | d :: rest => d.JSON :: definitionListJSON rest

/-- The loops at ast_json.go:326-329 and 340-343 (encode each argument in
order). -/
def expressionListJSON : List Expression → List Json
  | [] => []
  | e :: rest => e.JSON :: expressionListJSON rest
end

/-- `NewNilFromJSON` (ast_json.go:70-76). -/
def NewNilFromJSON (json : Option Json) : Except DecodeError Nil :=
  if toUint (getField json "type") ≠ TypeNil then .error .invalidJSON
  else .ok ⟨⟩

/-- `NewBooleanFromJSON` (ast_json.go:79-86). -/
def NewBooleanFromJSON (json : Option Json) : Except DecodeError Boolean :=
  if toUint (getField json "type") ≠ TypeBoolean then .error .invalidJSON
  else .ok ⟨toGoBool (getField json "value")⟩

/-- `NewInt32FromJSON` (ast_json.go:89-99). -/
def NewInt32FromJSON (json : Option Json) : Except DecodeError Int32 :=
  if toUint (getField json "type") ≠ TypeInt32 then .error .invalidJSON
  else
    match goParseInt32 (toGoString (getField json "value")) with
    | .error err => .error err
    | .ok value => .ok ⟨value⟩

/-- `NewFloat64FromJSON` (ast_json.go:102-112). -/
def NewFloat64FromJSON (json : Option Json) : Except DecodeError Float64 :=
  if toUint (getField json "type") ≠ TypeFloat64 then .error .invalidJSON
  else
    match goParseFloat64 (toGoString (getField json "value")) with
    | .error err => .error err
    | .ok value => .ok ⟨value⟩

/-- `NewStringFromJSON` (ast_json.go:115-122). -/
def NewStringFromJSON (json : Option Json) : Except DecodeError Str :=
  if toUint (getField json "type") ≠ TypeString then .error .invalidJSON
  else .ok ⟨toGoString (getField json "value")⟩

/-- `NewIDFromJSON` (ast_json.go:125-132). -/
def NewIDFromJSON (json : Option Json) : Except DecodeError ID :=
  if toUint (getField json "type") ≠ TypeID then .error .invalidJSON
  else .ok ⟨toGoString (getField json "value")⟩

/-- The loop at ast_json.go:165-172 (decode each parameter with
`NewIDFromJSON`, aborting on the first error). -/
def parametersFromJSON : List Json → Except DecodeError (List ID)
  | [] => .ok []
  | j :: rest =>
    match NewIDFromJSON (some j) with
    | .error err => .error err
    | .ok p => (parametersFromJSON rest).map (p :: ·)

theorem json_sizeOf_pos (x : Json) : 0 < sizeOf x := by
  cases x <;> simp <;> omega

theorem list_sizeOf_pos {α : Type} [SizeOf α] (l : List α) : 0 < sizeOf l := by
  cases l <;> simp <;> omega

theorem sizeOf_lookup_lt {fields : List (String × Json)} {key : String} {v : Json}
    (h : fields.lookup key = some v) : sizeOf v < sizeOf fields := by
  induction fields with
  | nil => simp [List.lookup] at h
  | cons kv rest ih =>
    rw [List.lookup] at h
    split at h
    · cases h
      cases kv
      simp
      omega
    · have := ih h
      simp
      omega

theorem sizeOf_getField_lt (x : Json) (key : String) :
    sizeOf (getField (some x) key) < sizeOf (some x) := by
  cases x with
  | obj fields =>
    simp only [getField]
    cases h : fields.lookup key with
    | none => simp; try omega
    | some v => have := sizeOf_lookup_lt h; simp; try omega
  | null => simp [getField]; try omega
  | bool b => simp [getField]; try omega
  | num n => simp [getField]; try omega
  | str s => simp [getField]; try omega
  | arr elems => simp [getField]; try omega

theorem getField_some_obj {json : Option Json} {t : Nat}
    (h : toUint (getField json "type") = t) (ht : 0 < t) : ∃ x, json = some x := by
  cases json with
  | none => simp [getField, toUint] at h; omega
  | some x => exact ⟨x, rfl⟩

theorem sizeOf_getField_lt_of_tag {json : Option Json} {t : Nat}
    (h : toUint (getField json "type") = t) (ht : 0 < t) (key : String) :
    sizeOf (getField json key) < sizeOf json := by
  obtain ⟨x, rfl⟩ := getField_some_obj h ht
  exact sizeOf_getField_lt x key

theorem sizeOf_asArr_getField_lt {json : Option Json} {t : Nat}
    (h : toUint (getField json "type") = t) (ht : 0 < t) (key : String) :
    sizeOf (asArr (getField json key)) < sizeOf json := by
  obtain ⟨x, rfl⟩ := getField_some_obj h ht
  have hg := sizeOf_getField_lt x key
  cases hf : getField (some x) key with
  | none => rw [hf] at hg; simp [asArr]; simp at hg; omega
  | some v =>
    rw [hf] at hg
    cases v with
    | arr elems => simp [asArr]; simp at hg; omega
    | null => simp [asArr]; simp at hg; omega
    | bool b => simp [asArr]; simp at hg; omega
    | num n => simp [asArr]; simp at hg; omega
    | str s => simp [asArr]; simp at hg; omega
    | obj fields => simp [asArr]; simp at hg; omega

mutual
/-- `NewExpressionFromJSON` (ast_json.go:14-41): switch on the coerced
`"type"` tag (the literal patterns `1`–`11` are `TypeModule`–
`TypeAnonymousCall`), defaulting to `ErrInvalidJSON`. -/
def NewExpressionFromJSON (json : Option Json) : Except DecodeError Expression :=
  match toUint (getField json "type") with
  | 1 => (NewModuleFromJSON json).map .module
  | 2 => (NewNilFromJSON json).map .nil
  | 3 => (NewBooleanFromJSON json).map .boolean
  | 4 => (NewInt32FromJSON json).map .int32
  | 5 => (NewFloat64FromJSON json).map .float64
  | 6 => (NewStringFromJSON json).map .str
  | 7 => (NewIDFromJSON json).map .id
  | 8 => (NewDefinitionFromJSON json).map .definition
  | 9 => (NewLambdaFromJSON json).map .lambda
  | 10 => (NewCallFromJSON json).map .call
  | 11 => (NewAnonymousCallFromJSON json).map .anonymousCall
  | _ => .error .invalidJSON
termination_by 2 * sizeOf json + 1
decreasing_by all_goals (simp_wf; try omega)

/-- `NewModuleFromJSON` (ast_json.go:44-67). -/
def NewModuleFromJSON (json : Option Json) : Except DecodeError Module :=
  if h : toUint (getField json "type") ≠ TypeModule then .error .invalidJSON
  else
    match definitionsFromJSON (asArr (getField json "definitions")) with
    | .error err => .error err
    | .ok definitions => .ok ⟨toGoString (getField json "name"), definitions⟩
termination_by 2 * sizeOf json
decreasing_by
  simp_wf
  have := sizeOf_asArr_getField_lt (not_not.mp h) (by decide) "definitions"
  omega

/-- `NewDefinitionFromJSON` (ast_json.go:135-154). -/
def NewDefinitionFromJSON (json : Option Json) : Except DecodeError Definition :=
  if h : toUint (getField json "type") ≠ TypeDefinition then .error .invalidJSON
  else
    match NewIDFromJSON (getField json "id") with
    | .error err => .error err
    | .ok id =>
      match NewExpressionFromJSON (getField json "expression") with
      | .error err => .error err
      | .ok expression => .ok ⟨id, expression⟩
termination_by 2 * sizeOf json
decreasing_by
  simp_wf
  have := sizeOf_getField_lt_of_tag (not_not.mp h) (by decide) "expression"
  omega

/-- `NewLambdaFromJSON` (ast_json.go:157-183). -/
def NewLambdaFromJSON (json : Option Json) : Except DecodeError Lambda :=
  if h : toUint (getField json "type") ≠ TypeLambda then .error .invalidJSON
  else
    match parametersFromJSON (asArr (getField json "parameters")) with
    | .error err => .error err
    | .ok parameters =>
      match NewExpressionFromJSON (getField json "expression") with
      | .error err => .error err
      | .ok expression => .ok ⟨parameters, expression⟩
termination_by 2 * sizeOf json
decreasing_by
  simp_wf
  have := sizeOf_getField_lt_of_tag (not_not.mp h) (by decide) "expression"
  omega

/-- `NewCallFromJSON` (ast_json.go:186-212). -/
def NewCallFromJSON (json : Option Json) : Except DecodeError Call :=
  if h : toUint (getField json "type") ≠ TypeCall then .error .invalidJSON
  else
    match NewIDFromJSON (getField json "id") with
    | .error err => .error err
    | .ok id =>
      match argumentsFromJSON (asArr (getField json "arguments")) with
      | .error err => .error err
      | .ok arguments => .ok ⟨id, arguments⟩
termination_by 2 * sizeOf json
decreasing_by
  simp_wf
  have := sizeOf_asArr_getField_lt (not_not.mp h) (by decide) "arguments"
  omega

/-- `NewAnonymousCallFromJSON` (ast_json.go:215-241). -/
def NewAnonymousCallFromJSON (json : Option Json) : Except DecodeError AnonymousCall :=
  if h : toUint (getField json "type") ≠ TypeAnonymousCall then .error .invalidJSON
  else
    match NewLambdaFromJSON (getField json "lambda") with
    | .error err => .error err
    | .ok lambda =>
      match argumentsFromJSON (asArr (getField json "arguments")) with
      | .error err => .error err
      | .ok arguments => .ok ⟨lambda, arguments⟩
termination_by 2 * sizeOf json
decreasing_by
  · simp_wf
    have := sizeOf_getField_lt_of_tag (not_not.mp h) (by decide) "lambda"
    omega
  · simp_wf
    have := sizeOf_asArr_getField_lt (not_not.mp h) (by decide) "arguments"
    omega

/-- The loop at ast_json.go:54-61 (decode each definition with
`NewDefinitionFromJSON`, aborting on the first error). -/
def definitionsFromJSON : List Json → Except DecodeError (List Definition)
  | [] => .ok []
  | j :: rest =>
    match NewDefinitionFromJSON (some j) with
    | .error err => .error err
    | .ok d => (definitionsFromJSON rest).map (d :: ·)
termination_by l => 2 * sizeOf l
decreasing_by
  all_goals simp_wf
  all_goals have hr := list_sizeOf_pos rest
  all_goals have hj := json_sizeOf_pos j
  all_goals omega

/-- The loops at ast_json.go:199-206 and 228-235 (decode each argument with
`NewExpressionFromJSON`, aborting on the first error). -/
def argumentsFromJSON : List Json → Except DecodeError (List Expression)
  | [] => .ok []
  | j :: rest =>
    match NewExpressionFromJSON (some j) with
    | .error err => .error err
    | .ok a => (argumentsFromJSON rest).map (a :: ·)
termination_by l => 2 * sizeOf l
decreasing_by
  all_goals simp_wf
  all_goals have hr := list_sizeOf_pos rest
  all_goals have hj := json_sizeOf_pos j
  all_goals omega
end

/-- Decoding a definitions array aborts with the first failing element's
error: if every element of `pre` decodes and `jd` fails with `e`, the whole
list fails with `e` (the loop at ast_json.go:54-61). -/
theorem definitionsFromJSON_error {pre : List Json} {jd : Json} {post : List Json}
    {e : DecodeError}
    (hpre : ∀ x ∈ pre, ∃ d, NewDefinitionFromJSON (some x) = .ok d)
    (hbad : NewDefinitionFromJSON (some jd) = .error e) :
    definitionsFromJSON (pre ++ jd :: post) = .error e := by
  induction pre with
  | nil =>
    simp only [List.nil_append, definitionsFromJSON]
    rw [hbad]
  | cons x pre ih =>
    obtain ⟨d, hd⟩ := hpre x (List.mem_cons_self x pre)
    simp only [List.cons_append, definitionsFromJSON]
    rw [hd, ih (fun y hy => hpre y (List.mem_cons_of_mem x hy))]
    rfl

/-- C1: decoding the encoding of `Module{Name: "test"}` (the test fixture at
ast_json_test.go:13-16) yields the right variant but an empty name: the
encoder (ast_json.go:250-253) never emits the `"name"` field the decoder
reads (ast_json.go:49), so the round trip is not field-for-field the
identity. -/
theorem C1_module_roundtrip_drops_name :
    NewExpressionFromJSON (some ((Module.mk "test" []).JSON)) =
      .ok (.module (Module.mk "" [])) ∧ "" ≠ "test" := by
  constructor
  · simp [NewExpressionFromJSON, NewModuleFromJSON, definitionsFromJSON, toUint, getField,
      strDigitPrefix, asArr, toGoString, List.lookup, TypeModule, Except.map, Module.JSON,
      definitionListJSON]
  · decide

/-- C2: the mapping `Module.JSON` emits for `Module{Name: "test"}` holds only
the `"type"` tag and the `"definitions"` sequence — it has no `"name"`
field. -/
theorem C2_encoder_omits_module_name :
    (Module.mk "test" []).JSON = Json.obj [("type", Json.num 1), ("definitions", Json.arr [])] ∧
    getField (some ((Module.mk "test" []).JSON)) "name" = none ∧
    getField (some ((Module.mk "test" []).JSON)) "type" = some (Json.num 1) ∧
    getField (some ((Module.mk "test" []).JSON)) "definitions" = some (Json.arr []) := by
  refine ⟨?_, ?_, ?_, ?_⟩ <;>
    simp [Module.JSON, definitionListJSON, TypeModule, getField, List.lookup]

/-- C3 (counterexample): a non-numeric `"type"` value need not be rejected —
`{"type": true}` coerces to tag `1` under jsoniter's `ToUint` and decodes
successfully as a `Module`, contradicting the claim that non-numeric tag
values always fail. -/
theorem C3_counterexample_bool_tag_accepted :
    NewExpressionFromJSON (some (Json.obj [("type", Json.bool true)])) =
      .ok (.module (Module.mk "" [])) := by
  simp [NewExpressionFromJSON, NewModuleFromJSON, definitionsFromJSON, toUint, getField,
    strDigitPrefix, asArr, toGoString, List.lookup, TypeModule, Except.map]

/-- C3 (amended): the top-level dispatcher fails with `ErrInvalidJSON`
exactly on inputs whose `"type"` field coerces (via jsoniter's permissive
unsigned coercion) to a tag outside `1`–`11`; this covers a missing field,
`null`, non-digit text and `{"type": 0}`, but values coercing into range
(such as `true` or a digit string) dispatch instead of failing. -/
theorem C3_out_of_range_tag_rejected (json : Option Json)
    (h : toUint (getField json "type") < 1 ∨ 11 < toUint (getField json "type")) :
    NewExpressionFromJSON json = .error .invalidJSON := by
  rw [NewExpressionFromJSON.eq_def]
  split
  all_goals first
    | rfl
    | omega

/-- C3 witness: `{"type": 0}` and a missing tag are rejected. -/
theorem C3_out_of_range_tag_rejected_witness :
    NewExpressionFromJSON (some (Json.obj [("type", Json.num 0)])) = .error .invalidJSON ∧
    NewExpressionFromJSON none = .error .invalidJSON :=
  ⟨C3_out_of_range_tag_rejected _ (by decide), C3_out_of_range_tag_rejected none (by decide)⟩

/-- C4: every per-variant constructor re-validates its own tag: whenever the
coerced `"type"` tag differs from the constructor's expected tag, it returns
`ErrInvalidJSON` (and hence never partially succeeds), regardless of whether
it is reached from the dispatcher or recursively. -/
theorem C4_tag_exclusivity (json : Option Json) :
    (toUint (getField json "type") ≠ TypeModule →
      NewModuleFromJSON json = .error .invalidJSON) ∧
    (toUint (getField json "type") ≠ TypeNil →
      NewNilFromJSON json = .error .invalidJSON) ∧
    (toUint (getField json "type") ≠ TypeBoolean →
      NewBooleanFromJSON json = .error .invalidJSON) ∧
    (toUint (getField json "type") ≠ TypeInt32 →
      NewInt32FromJSON json = .error .invalidJSON) ∧
    (toUint (getField json "type") ≠ TypeFloat64 →
      NewFloat64FromJSON json = .error .invalidJSON) ∧
    (toUint (getField json "type") ≠ TypeString →
      NewStringFromJSON json = .error .invalidJSON) ∧
    (toUint (getField json "type") ≠ TypeID →
      NewIDFromJSON json = .error .invalidJSON) ∧
    (toUint (getField json "type") ≠ TypeDefinition →
      NewDefinitionFromJSON json = .error .invalidJSON) ∧
    (toUint (getField json "type") ≠ TypeLambda →
      NewLambdaFromJSON json = .error .invalidJSON) ∧
    (toUint (getField json "type") ≠ TypeCall →
      NewCallFromJSON json = .error .invalidJSON) ∧
    (toUint (getField json "type") ≠ TypeAnonymousCall →
      NewAnonymousCallFromJSON json = .error .invalidJSON) := by
  refine ⟨?_, ?_, ?_, ?_, ?_, ?_, ?_, ?_, ?_, ?_, ?_⟩ <;> intro h
  · rw [NewModuleFromJSON.eq_def, dif_pos h]
  · simp only [NewNilFromJSON, if_pos h]
  · simp only [NewBooleanFromJSON, if_pos h]
  · simp only [NewInt32FromJSON, if_pos h]
  · simp only [NewFloat64FromJSON, if_pos h]
  · simp only [NewStringFromJSON, if_pos h]
  · simp only [NewIDFromJSON, if_pos h]
  · rw [NewDefinitionFromJSON.eq_def, dif_pos h]
  · rw [NewLambdaFromJSON.eq_def, dif_pos h]
  · rw [NewCallFromJSON.eq_def, dif_pos h]
  · rw [NewAnonymousCallFromJSON.eq_def, dif_pos h]

/-- C4 witness: on the invalid Any (missing input) every constructor's tag
check fails, so all eleven reject with `ErrInvalidJSON`. -/
theorem C4_tag_exclusivity_witness :
    NewModuleFromJSON none = .error .invalidJSON ∧
    NewNilFromJSON none = .error .invalidJSON ∧
    NewBooleanFromJSON none = .error .invalidJSON ∧
    NewInt32FromJSON none = .error .invalidJSON ∧
    NewFloat64FromJSON none = .error .invalidJSON ∧
    NewStringFromJSON none = .error .invalidJSON ∧
    NewIDFromJSON none = .error .invalidJSON ∧
    NewDefinitionFromJSON none = .error .invalidJSON ∧
    NewLambdaFromJSON none = .error .invalidJSON ∧
    NewCallFromJSON none = .error .invalidJSON ∧
    NewAnonymousCallFromJSON none = .error .invalidJSON := by
  have h := C4_tag_exclusivity none
  exact ⟨h.1 (by decide), h.2.1 (by decide), h.2.2.1 (by decide), h.2.2.2.1 (by decide),
    h.2.2.2.2.1 (by decide), h.2.2.2.2.2.1 (by decide), h.2.2.2.2.2.2.1 (by decide),
    h.2.2.2.2.2.2.2.1 (by decide), h.2.2.2.2.2.2.2.2.1 (by decide),
    h.2.2.2.2.2.2.2.2.2.1 (by decide), h.2.2.2.2.2.2.2.2.2.2 (by decide)⟩

/-- C8: a module input whose `"definitions"` field is absent or the empty
array decodes to a `Module` whose definitions list is `[]` (never absent);
more generally an absent composite field decodes to the empty sequence, shown
here for `Call.arguments` as well. -/
theorem C8_empty_definitions_preserved :
    (∀ json : Option Json, toUint (getField json "type") = TypeModule →
      getField json "definitions" = none ∨ getField json "definitions" = some (Json.arr []) →
      NewModuleFromJSON json = .ok (Module.mk (toGoString (getField json "name")) [])) ∧
    (∀ (json : Option Json) (i : ID), toUint (getField json "type") = TypeCall →
      getField json "arguments" = none →
      NewIDFromJSON (getField json "id") = .ok i →
      NewCallFromJSON json = .ok (Call.mk i [])) := by
  constructor
  · intro json htag hdefs
    rw [NewModuleFromJSON.eq_def, dif_neg (not_ne_iff.mpr htag)]
    have harr : asArr (getField json "definitions") = [] := by
      rcases hdefs with h | h <;> rw [h] <;> rfl
    rw [harr]
    simp only [definitionsFromJSON]
  · intro json i htag hargs hid
    rw [NewCallFromJSON.eq_def, dif_neg (not_ne_iff.mpr htag), hid]
    have harr : asArr (getField json "arguments") = [] := by rw [hargs]; rfl
    rw [harr]
    simp only [argumentsFromJSON]

/-- C8 witness: concrete modules with absent and with empty `"definitions"`,
and a call with absent `"arguments"`. -/
theorem C8_empty_definitions_preserved_witness :
    NewModuleFromJSON (some (Json.obj [("type", Json.num 1)])) = .ok (Module.mk "" []) ∧
    NewModuleFromJSON (some (Json.obj [("type", Json.num 1), ("definitions", Json.arr [])])) =
      .ok (Module.mk "" []) ∧
    NewCallFromJSON (some (Json.obj [("type", Json.num 10),
        ("id", Json.obj [("type", Json.num 7), ("value", Json.str "f")])])) =
      .ok (Call.mk ⟨"f"⟩ []) := by
  have h := C8_empty_definitions_preserved
  exact ⟨h.1 _ (by rfl) (Or.inl (by rfl)), h.1 _ (by rfl) (Or.inr (by rfl)),
    h.2 _ ⟨"f"⟩ (by rfl) (by rfl) (by rfl)⟩

/-- C9 (counterexample): an input with the Module tag and no `"name"` field
can still fail — a malformed definition aborts the decode — so the claim
that such inputs always succeed with the zero value is false as stated. -/
theorem C9_counterexample_module_can_fail :
    NewModuleFromJSON (some (Json.obj [("type", Json.num 1),
        ("definitions", Json.arr [Json.obj [("type", Json.num 0)]])])) =
      .error .invalidJSON := by
  simp [NewModuleFromJSON, definitionsFromJSON, NewDefinitionFromJSON, toUint, getField,
    asArr, List.lookup, TypeModule, TypeDefinition]

/-- C9 (amended): with the matching tag and the scalar field absent, the
Boolean/String/ID constructors always succeed with the scalar zero value
(`false` / empty text); a Module with an absent `"name"` never fails because
of the name — it decodes with name `""` whenever its definitions decode —
though a malformed definition can still abort it. -/
theorem C9_absent_scalar_zero_value :
    (∀ json : Option Json, toUint (getField json "type") = TypeBoolean →
      getField json "value" = none → NewBooleanFromJSON json = .ok ⟨false⟩) ∧
    (∀ json : Option Json, toUint (getField json "type") = TypeString →
      getField json "value" = none → NewStringFromJSON json = .ok ⟨""⟩) ∧
    (∀ json : Option Json, toUint (getField json "type") = TypeID →
      getField json "value" = none → NewIDFromJSON json = .ok ⟨""⟩) ∧
    (∀ (json : Option Json) (ds : List Definition),
      toUint (getField json "type") = TypeModule →
      getField json "name" = none →
      definitionsFromJSON (asArr (getField json "definitions")) = .ok ds →
      NewModuleFromJSON json = .ok (Module.mk "" ds)) := by
  refine ⟨?_, ?_, ?_, ?_⟩
  · intro json htag hval
    simp only [NewBooleanFromJSON]
    rw [if_neg (not_ne_iff.mpr htag), hval]
    rfl
  · intro json htag hval
    simp only [NewStringFromJSON]
    rw [if_neg (not_ne_iff.mpr htag), hval]
    rfl
  · intro json htag hval
    simp only [NewIDFromJSON]
    rw [if_neg (not_ne_iff.mpr htag), hval]
    rfl
  · intro json ds htag hname hdefs
    rw [NewModuleFromJSON.eq_def, dif_neg (not_ne_iff.mpr htag), hdefs, hname]
    rfl

/-- C9 witness: each constructor at a minimal input with the right tag and
the scalar field absent. -/
theorem C9_absent_scalar_zero_value_witness :
    NewBooleanFromJSON (some (Json.obj [("type", Json.num 3)])) = .ok ⟨false⟩ ∧
    NewStringFromJSON (some (Json.obj [("type", Json.num 6)])) = .ok ⟨""⟩ ∧
    NewIDFromJSON (some (Json.obj [("type", Json.num 7)])) = .ok ⟨""⟩ ∧
    NewModuleFromJSON (some (Json.obj [("type", Json.num 1)])) = .ok (Module.mk "" []) := by
  have h := C9_absent_scalar_zero_value
  refine ⟨h.1 _ (by rfl) (by rfl), h.2.1 _ (by rfl) (by rfl), h.2.2.1 _ (by rfl) (by rfl),
    h.2.2.2 _ [] (by rfl) (by rfl) ?_⟩
  show definitionsFromJSON [] = .ok []
  simp only [definitionsFromJSON]

/-- C10: whenever the `"type"` field reads (coerces) as the Nil tag `2`,
`NewNilFromJSON` succeeds with `Nil` — both directly and through the
dispatcher — and its result depends on nothing but the coerced tag, so no
other field is ever inspected. -/
theorem C10_nil_depends_only_on_tag :
    (∀ json : Option Json, toUint (getField json "type") = TypeNil →
      NewNilFromJSON json = .ok ⟨⟩ ∧ NewExpressionFromJSON json = .ok (.nil ⟨⟩)) ∧
    (∀ j1 j2 : Option Json, toUint (getField j1 "type") = toUint (getField j2 "type") →
      NewNilFromJSON j1 = NewNilFromJSON j2) := by
  constructor
  · intro json h
    have h2 : toUint (getField json "type") = 2 := h
    constructor
    · simp only [NewNilFromJSON]
      rw [if_neg (not_ne_iff.mpr h)]
    · rw [NewExpressionFromJSON.eq_def, h2]
      simp only [NewNilFromJSON]
      rw [if_neg (not_ne_iff.mpr h)]
      rfl
  · intro j1 j2 h
    simp only [NewNilFromJSON, h]

/-- C10 witness: a Nil input carrying an extra unrelated field decodes
successfully. -/
theorem C10_nil_depends_only_on_tag_witness :
    NewNilFromJSON (some (Json.obj [("type", Json.num 2), ("value", Json.num 99)])) = .ok ⟨⟩ ∧
    NewExpressionFromJSON (some (Json.obj [("type", Json.num 2), ("value", Json.num 99)])) =
      .ok (.nil ⟨⟩) :=
  C10_nil_depends_only_on_tag.1 _ (by rfl)

/-- Test fixture: a definition whose nested expression is a malformed Int32
(non-numeric decimal text `"abc"`). -/
def badInt32Definition : Json :=
  Json.obj [("type", Json.num 8),
    ("id", Json.obj [("type", Json.num 7), ("value", Json.str "definitionID")]),
    ("expression", Json.obj [("type", Json.num 4), ("value", Json.str "abc")])]

/-- Test fixture: a module whose only definition is `badInt32Definition`. -/
def badInt32Module : Json :=
  Json.obj [("type", Json.num 1), ("definitions", Json.arr [badInt32Definition])]

theorem digitsVal_append (ds : List Char) (c : Char) :
    digitsVal (ds ++ [c]) = digitsVal ds * 10 + (c.toNat - 48) := by
  simp [digitsVal, List.foldl_append]

theorem digitChar_isDigit {d : Nat} (h : d < 10) : isDigitChar (Char.ofNat (48 + d)) = true := by
  interval_cases d <;> decide

theorem digitChar_val {d : Nat} (h : d < 10) : (Char.ofNat (48 + d)).toNat - 48 = d := by
  interval_cases d <;> decide

theorem natDigitsAux_succ (fuel n : Nat) :
    natDigitsAux (fuel + 1) n =
      if n < 10 then [Char.ofNat (48 + n)]
      else natDigitsAux fuel (n / 10) ++ [Char.ofNat (48 + n % 10)] := rfl

/-- With enough fuel, `natDigitsAux` produces a non-empty digit string whose
base-10 value is exactly `n`. -/
theorem natDigitsAux_spec (fuel : Nat) : ∀ n : Nat, n < 10 ^ (fuel + 1) →
    natDigitsAux (fuel + 1) n ≠ [] ∧ (natDigitsAux (fuel + 1) n).all isDigitChar = true ∧
    digitsVal (natDigitsAux (fuel + 1) n) = n := by
  induction fuel with
  | zero =>
    intro n hn
    have h10 : n < 10 := by simpa using hn
    rw [natDigitsAux_succ, if_pos h10]
    refine ⟨by simp, ?_, ?_⟩
    · simp [digitChar_isDigit h10]
    · simp [digitsVal, digitChar_val h10]
  | succ f ih =>
    intro n hn
    by_cases h10 : n < 10
    · rw [natDigitsAux_succ, if_pos h10]
      refine ⟨by simp, ?_, ?_⟩
      · simp [digitChar_isDigit h10]
      · simp [digitsVal, digitChar_val h10]
    · rw [natDigitsAux_succ, if_neg h10]
      have hdiv : n / 10 < 10 ^ (f + 1) := by
        rw [Nat.div_lt_iff_lt_mul (by norm_num)]
        calc n < 10 ^ (f + 1 + 1) := hn
        _ = 10 ^ (f + 1) * 10 := by ring
      obtain ⟨hne, hall, hval⟩ := ih (n / 10) hdiv
      have hm : n % 10 < 10 := Nat.mod_lt _ (by norm_num)
      refine ⟨by simp, ?_, ?_⟩
      · rw [List.all_append]
        simp [hall, digitChar_isDigit hm]
      · rw [digitsVal_append, hval, digitChar_val hm]
        omega

/-- `natDigitChars n` is a non-empty all-digit string with value `n`. -/
theorem natDigitChars_spec (n : Nat) :
    natDigitChars n ≠ [] ∧ (natDigitChars n).all isDigitChar = true ∧
    digitsVal (natDigitChars n) = n := by
  have h : n < 10 ^ (n + 1) :=
    calc n < 10 ^ n := Nat.lt_pow_self (by norm_num) n
    _ ≤ 10 ^ (n + 1) := Nat.pow_le_pow_right (by norm_num) (Nat.le_succ n)
  exact natDigitsAux_spec n n h

theorem isDigitChar_ne_sign {c : Char} (h : isDigitChar c = true) : ¬(c = '-' ∨ c = '+') := by
  rintro (rfl | rfl) <;> exact absurd h (by decide)

/-- `strconv.ParseInt(_, 10, 32)` inverts `strconv.FormatInt(_, 10)` on every
in-range 32-bit value. -/
theorem goParseInt32_formatGoInt {v : Int} (h1 : -(2 ^ 31) ≤ v) (h2 : v < 2 ^ 31) :
    goParseInt32 (formatGoInt v) = .ok v := by
  by_cases hneg : v < 0
  · rw [formatGoInt, if_pos hneg]
    obtain ⟨hne, hall, hval⟩ := natDigitChars_spec (-v).toNat
    simp only [goParseInt32]
    simp [hne, hall, hval]
    rw [if_neg (by omega)]
    have hsup : -v ⊔ (0 : Int) = -v := by
      rw [sup_eq_max]
      exact max_eq_left (by omega)
    rw [hsup, neg_neg]
  · rw [formatGoInt, if_neg hneg]
    obtain ⟨hne, hall, hval⟩ := natDigitChars_spec v.toNat
    obtain ⟨c, cs, hcc⟩ : ∃ c cs, natDigitChars v.toNat = c :: cs := by
      cases hc : natDigitChars v.toNat with
      | nil => exact absurd hc hne
      | cons c cs => exact ⟨c, cs, rfl⟩
    have hcd : isDigitChar c = true := by
      have hh := hall
      rw [hcc] at hh
      simp [List.all_cons] at hh
      exact hh.1
    have hc1 : ¬(c = '-' ∨ c = '+') := isDigitChar_ne_sign hcd
    have hc2 : ¬(c = '-') := fun hh => hc1 (Or.inl hh)
    have hc3 : ¬(c = '+') := fun hh => hc1 (Or.inr hh)
    have hall2 : ∀ x ∈ natDigitChars v.toNat, isDigitChar x = true := by simpa using hall
    have hrange2 : ¬ (2147483648 : Nat) ≤ v.toNat := by omega
    have hsup : v ⊔ (0 : Int) = v := by
      rw [sup_eq_max]
      exact max_eq_left (by omega)
    simp only [goParseInt32, hcc]
    simp [hc2, hc3, ← hcc, hne, hval, hall2, hrange2, hsup]
    exact hall2

/-- C5: an Int32 is encoded as its base-10 decimal text (in a `"value"`
string, never a native number), decoding the encoding of any in-range 32-bit
value reproduces exactly that value, and a `"value"` string rejected by
`strconv.ParseInt(s, 10, 32)` (non-numeric or out of range) makes the
constructor fail with that same parse error. -/
theorem C5_int32_decimal_roundtrip :
    (∀ v : Int, -(2 ^ 31) ≤ v → v < 2 ^ 31 →
      (Int32.mk v).JSON = Json.obj [("type", Json.num 4), ("value", Json.str (formatGoInt v))] ∧
      NewInt32FromJSON (some ((Int32.mk v).JSON)) = .ok (Int32.mk v)) ∧
    (∀ (s : String) (e : DecodeError), goParseInt32 s = .error e →
      NewInt32FromJSON (some (Json.obj [("type", Json.num 4), ("value", Json.str s)])) =
        .error e) := by
  constructor
  · intro v hv1 hv2
    refine ⟨rfl, ?_⟩
    simp only [NewInt32FromJSON]
    rw [show toUint (getField (some ((Int32.mk v).JSON)) "type") = 4 from rfl]
    rw [if_neg (by decide)]
    rw [show toGoString (getField (some ((Int32.mk v).JSON)) "value") = formatGoInt v from rfl]
    rw [goParseInt32_formatGoInt hv1 hv2]
  · intro s e he
    simp only [NewInt32FromJSON]
    rw [show toUint (getField (some (Json.obj [("type", Json.num 4), ("value", Json.str s)]))
      "type") = 4 from rfl]
    rw [if_neg (by decide)]
    rw [show toGoString (getField (some (Json.obj [("type", Json.num 4), ("value", Json.str s)]))
      "value") = s from rfl]
    rw [he]

/-- C5 witness: `-42` round-trips through its decimal text `"-42"`, and the
non-numeric text `"abc"` fails with the `ParseInt` syntax error. -/
theorem C5_int32_decimal_roundtrip_witness :
    NewInt32FromJSON (some ((Int32.mk (-42)).JSON)) = .ok (Int32.mk (-42)) ∧
    (Int32.mk (-42)).JSON = Json.obj [("type", Json.num 4), ("value", Json.str "-42")] ∧
    NewInt32FromJSON (some (Json.obj [("type", Json.num 4), ("value", Json.str "abc")])) =
      .error (.numError "ParseInt" "abc" .synErr) := by
  have h := C5_int32_decimal_roundtrip
  refine ⟨(h.1 (-42) (by decide) (by decide)).2, ?_,
    h.2 "abc" (.numError "ParseInt" "abc" .synErr) rfl⟩
  rw [(h.1 (-42) (by decide) (by decide)).1]
  rfl

/-- C7: a Definition whose nested expression is an Int32 with unparsable
value text fails with that very parse error, and a Module enclosing it (after
any prefix of well-formed definitions) fails with the same error — the error
propagates unchanged through every enclosing recursive call and no partial
tree is returned. -/
theorem C7_parse_error_propagates (jd : Json) (e : DecodeError)
    (h1 : toUint (getField (some jd) "type") = TypeDefinition)
    (h2 : ∃ i, NewIDFromJSON (getField (some jd) "id") = .ok i)
    (h3 : toUint (getField (getField (some jd) "expression") "type") = TypeInt32)
    (h4 : goParseInt32 (toGoString (getField (getField (some jd) "expression") "value")) =
      .error e) :
    NewDefinitionFromJSON (some jd) = .error e ∧
    ∀ (jm : Json) (pre post : List Json),
      toUint (getField (some jm) "type") = TypeModule →
      asArr (getField (some jm) "definitions") = pre ++ jd :: post →
      (∀ x ∈ pre, ∃ d, NewDefinitionFromJSON (some x) = .ok d) →
      NewModuleFromJSON (some jm) = .error e := by
  have hint : NewInt32FromJSON (getField (some jd) "expression") = .error e := by
    simp only [NewInt32FromJSON]
    rw [if_neg (not_ne_iff.mpr h3), h4]
  have hexpr : NewExpressionFromJSON (getField (some jd) "expression") = .error e := by
    have h3x : toUint (getField (getField (some jd) "expression") "type") = 4 := h3
    rw [NewExpressionFromJSON.eq_def, h3x]
    show (NewInt32FromJSON (getField (some jd) "expression")).map Expression.int32 = .error e
    rw [hint]
    rfl
  have hdef : NewDefinitionFromJSON (some jd) = .error e := by
    obtain ⟨i, hi⟩ := h2
    rw [NewDefinitionFromJSON.eq_def, dif_neg (not_ne_iff.mpr h1), hi, hexpr]
  refine ⟨hdef, ?_⟩
  intro jm pre post hm hsplit hpre
  rw [NewModuleFromJSON.eq_def, dif_neg (not_ne_iff.mpr hm), hsplit,
    definitionsFromJSON_error hpre hdef]

/-- C7 witness: the concrete fixture — a definition binding `definitionID`
to `Int32` text `"abc"` — fails with the `ParseInt` syntax error, and so does
the module containing it. -/
theorem C7_parse_error_propagates_witness :
    NewDefinitionFromJSON (some badInt32Definition) =
      .error (.numError "ParseInt" "abc" .synErr) ∧
    NewModuleFromJSON (some badInt32Module) =
      .error (.numError "ParseInt" "abc" .synErr) := by
  have h := C7_parse_error_propagates badInt32Definition (.numError "ParseInt" "abc" .synErr)
    rfl ⟨⟨"definitionID"⟩, rfl⟩ rfl rfl
  exact ⟨h.1, h.2 badInt32Module [] [] rfl rfl (fun x hx => absurd hx (List.not_mem_nil x))⟩

end Rogue
